import Mathlib

/-!
Verification of the build-orchestration logic of `setup.py` (the dlib python
packaging script).  The shallow embedding below translates, function by
function, the parts of the script that the specification talks about:

* `get_extra_cmake_options` (the Option Extractor) — a single left-to-right
  scan over a copy of `sys.argv` that collects `-D...` switches and removes
  the recognised flags from `sys.argv` in place via `sys.argv.remove(arg)`
  (which deletes the *first* occurrence equal to the argument).
* `rmtree` with its `remove_read_only` error handler (the Build-Directory
  Manager's forced clean).  The handler references the module-level names
  `errno` and `stat`; the embedding models the module's global namespace so
  that those lookups behave as in the source file.
* `CMakeBuild.get_cmake_version`, `CMakeBuild.run` and
  `CMakeBuild.build_extension` (Native Build Driver and Platform Argument
  Synthesizer).  External effects (subprocess calls, filesystem mutation)
  are recorded in an explicit effect trace; the outcomes of the external
  world (tool present?, exit codes, cpu count, platform) are inputs in a
  `World` record.
* `read_version_from_cmakelists` (the Version Reconciler) together with an
  executable model of the regular expression
  `set\(CPACK_PACKAGE_VERSION_<F>.*\"(.*)\"` used on each line.

Python strings are modelled as Lean `String`/`List Char`; Python's
`str.strip`, `str.lower`, `str.upper` and slicing are embedded as the
`py*` helpers below.  Fallible Python code (raising exceptions) is embedded
with `Except PyErr`.
-/

/-! ## Python string helpers -/

/-- Whitespace test used by `pyStrip` (Python `str.strip()` with no
argument strips whitespace; we model the ASCII whitespace characters that
can actually occur in command-line tokens). -/
def isSpaceChar (c : Char) : Bool := c = ' ' || c = '\t' || c = '\n' || c = '\r'

/-- Python `s.strip()`: remove leading and trailing whitespace. -/
def pyStrip (s : String) : String :=
  String.mk (((s.data.dropWhile isSpaceChar).reverse.dropWhile isSpaceChar).reverse)

/-- Python `s.lower()` (ASCII case folding, which covers the flag names). -/
def pyLower (s : String) : String := String.mk (s.data.map Char.toLower)

/-- Python `s.upper()` (ASCII case folding, used on `"Debug"`/`"Release"`). -/
def pyUpper (s : String) : String := String.mk (s.data.map Char.toUpper)

/-- Python `s[n:]` (slicing is by characters). -/
def pyDrop (n : Nat) (s : String) : String := String.mk (s.data.drop n)

/-! ## Option Extractor (`get_extra_cmake_options`, setup.py lines 44-77)

The Python loop iterates over a copy of `sys.argv` while removing consumed
tokens from `sys.argv` itself with `sys.argv.remove(arg)`.  `list.remove`
deletes the first occurrence equal to its argument, which `List.erase`
models exactly.  (`list.remove` raises `ValueError` when no occurrence
exists; in this loop every removed string is still present — each processed
occurrence triggers at most one removal of its own value — so the total
`List.erase` is faithful.) -/

/-- The three value-consuming flags recognised by the extractor. -/
def valueFlags : List String := ["--yes", "--no", "--compiler-flags"]

/-- All four orchestrator flags (`--clean` takes no value). -/
def flagTokens : List String := "--clean" :: valueFlags

/-- State of the scan: `optKey` is the Python `opt_key` variable (`none` =
Python `None`), `opts` is `_cmake_extra_options`, `clean` is
`_clean_build_folder`, and `argv` is the current (mutated) `sys.argv`. -/
structure ScanState where
  optKey : Option String
  opts : List String
  clean : Bool
  argv : List String
deriving Repr, DecidableEq

/-- One iteration of the `for opt_idx, arg in enumerate(argv)` loop body. -/
def scanStep (s : ScanState) (arg : String) : ScanState :=
  match s.optKey with
  | some key =>
    -- the `if opt_key == ...` chain appends the switch, then
    -- `sys.argv.remove(arg); opt_key = None; continue`
    let opts :=
      if key = "compiler-flags" then s.opts ++ ["-DCMAKE_CXX_FLAGS=" ++ pyStrip arg]
      else if key = "yes" then s.opts ++ ["-D" ++ pyStrip arg ++ "=yes"]
      else if key = "no" then s.opts ++ ["-D" ++ pyStrip arg ++ "=no"]
      else s.opts
    { optKey := none, opts := opts, clean := s.clean, argv := s.argv.erase arg }
  | none =>
    if arg = "--clean" then
      { s with clean := true, argv := s.argv.erase arg }
    else if arg ∈ valueFlags then
      -- `opt_key = arg[2:].lower(); sys.argv.remove(arg); continue`
      { s with optKey := some (pyLower (pyDrop 2 arg)), argv := s.argv.erase arg }
    else s

/-- The whole loop over the copied argument list. -/
def scanArgs (s : ScanState) : List String → ScanState
  | [] => s
  | a :: rest => scanArgs (scanStep s a) rest

/-- `get_extra_cmake_options()`: scan a copy of `argv`, starting from empty
options, `clean = False`, and `sys.argv = argv`.  In the result,
`.opts` is the returned `_cmake_extra_options`, `.clean` is the returned
`_clean_build_folder`, and `.argv` is `sys.argv` after the in-place
filtering. -/
def get_extra_cmake_options (argv : List String) : ScanState :=
  scanArgs ⟨none, [], false, argv⟩ argv

/-! ### Specification-side description of the extractor

`WF` is the claim's notion of a well-formed flag sequence: every
value-consuming flag is immediately followed by its value token; `--clean`
may appear anywhere; any token that is not one of the four flags is an
"other" token.  The `spec*` functions below transcribe the spec's words
("a filtered argument list containing none of the flags or their consumed
value tokens, and all other tokens in original relative order"; one switch
per flag, in flag order) as structural recursions, to be compared with the
faithful scan. -/

inductive WF : List String → Prop where
  | nil : WF []
  | plain (a : String) (rest : List String) (h1 : a ∉ valueFlags) (h2 : a ≠ "--clean")
      (h : WF rest) : WF (a :: rest)
  | clean (rest : List String) (h : WF rest) : WF ("--clean" :: rest)
  | flagval (f v : String) (rest : List String) (hf : f ∈ valueFlags)
      (h : WF rest) : WF (f :: v :: rest)

/-- Spec-side filtered list: drop the four flags and each value-consuming
flag's following token, keep every other token in order. -/
def specFilter : List String → List String
  | [] => []
  | [a] => if a = "--clean" then [] else if a ∈ valueFlags then [] else [a]
  | a :: b :: rest =>
    if a = "--clean" then specFilter (b :: rest)
    else if a ∈ valueFlags then specFilter rest
    else a :: specFilter (b :: rest)

/-- Spec-side switch list: one switch per value-consuming flag, in the
order the flags appear. -/
def specOpts : List String → List String
  | [] => []
  | [_] => []
  | a :: b :: rest =>
    if a = "--clean" then specOpts (b :: rest)
    else if a = "--compiler-flags" then ("-DCMAKE_CXX_FLAGS=" ++ pyStrip b) :: specOpts rest
    else if a = "--yes" then ("-D" ++ pyStrip b ++ "=yes") :: specOpts rest
    else if a = "--no" then ("-D" ++ pyStrip b ++ "=no") :: specOpts rest
    else specOpts (b :: rest)

/-- Spec-side consumed value tokens, in order. -/
def specValues : List String → List String
  | [] => []
  | [_] => []
  | a :: b :: rest =>
    if a = "--clean" then specValues (b :: rest)
    else if a ∈ valueFlags then b :: specValues rest
    else specValues (b :: rest)

/-- Spec-side clean request: true iff a (non-consumed) `--clean` occurs. -/
def specClean : List String → Bool
  | [] => false
  | [a] => if a = "--clean" then true else false
  | a :: b :: rest =>
    if a = "--clean" then true
    else if a ∈ valueFlags then specClean rest
    else specClean (b :: rest)

/-! ## Errors

One constructor per distinct Python exception raised by the orchestration
code; payloads record what the exception observably carries (the message's
extension names, the `returncode`, the unbound name, the extraction site
of the indexing failure). -/

inductive PyErr where
  /-- `NameError`: a module-level name was referenced but never bound
  (setup.py imports neither `errno` nor `stat`). -/
  | nameError (missingGlobal : String)
  /-- `OSError`/`FileNotFoundError` from launching a missing executable. -/
  | fileNotFound
  /-- `IndexError` from `re.findall(...)[0]` in
  `read_version_from_cmakelists`; the payload records which of the three
  version-field extractions (MAJOR/MINOR/PATCH) raised it. -/
  | versionFieldMissing (field : String)
  /-- `AttributeError`: `re.search` returned `None` in `get_cmake_version`. -/
  | versionPatternNotFound
  /-- `RuntimeError("CMake must be installed to build the following
  extensions: <names>")`; the payload is the list of joined names. -/
  | toolNotFound (extNames : List String)
  /-- `RuntimeError("CMake >= 3.1.0 is required on Windows")`. -/
  | unsupportedToolVersion
  /-- `CalledProcessError` from the configure `check_call`, carrying the
  tool's exit status. -/
  | configureFailed (code : Int)
  /-- `CalledProcessError` from the build `check_call`. -/
  | buildFailed (code : Int)
  /-- The `remove_read_only` handler re-raised the original removal error
  (its `else: raise` branch). -/
  | reraisedRemovalError
deriving Repr, DecidableEq

instance instDecEqExcept {ε α : Type _} [DecidableEq ε] [DecidableEq α] :
    DecidableEq (Except ε α)
  | .ok a, .ok b =>
    match decEq a b with
    | isTrue h => isTrue (h ▸ rfl)
    | isFalse h => isFalse fun hh => h (Except.ok.inj hh)
  | .ok _, .error _ => isFalse fun hh => Except.noConfusion hh
  | .error _, .ok _ => isFalse fun hh => Except.noConfusion hh
  | .error e, .error f =>
    match decEq e f with
    | isTrue h => isTrue (h ▸ rfl)
    | isFalse h => isFalse fun hh => h (Except.error.inj hh)

/-! ## Build-Directory Manager (`rmtree`, setup.py lines 87-101)

`remove_read_only` is the `onerror` callback handed to `shutil.rmtree`.
Its body reads the module-level names `errno` and `stat`.  Python resolves
those names in the module's global namespace at call time; setup.py binds
only `os, re, sys, shutil, platform, subprocess,
multiprocessing`, `log`, `ceil`, the setuptools/distutils names, and its
own top-level definitions — `errno` and `stat` are not among them (the
`errno` in `PyTest.run_tests` is a local variable of that method), so the
lookups raise `NameError`. -/

/-- Names bound in setup.py's module-level namespace. -/
def moduleGlobals : List String :=
  ["os", "re", "sys", "shutil", "platform", "subprocess", "multiprocessing",
   "log", "ceil", "setup", "Extension", "build_ext", "LooseVersion",
   "TestCommand", "get_extra_cmake_options", "cmake_extra_options",
   "clean_build_folder", "CMakeExtension", "rmtree", "CMakeBuild", "PyTest",
   "read_version_from_cmakelists", "read_entire_file"]

/-- Resolving a global name: `NameError` when it is unbound. -/
def lookupGlobal (n : String) : Except PyErr Unit :=
  if n ∈ moduleGlobals then .ok () else .error (.nameError n)

/-- The `remove_read_only(func, path, exc)` handler.  `funcIsRemoval`
states whether `func in (os.rmdir, os.remove)` (evaluated first, and
short-circuiting the `and`); `errnoIsEACCES` states whether the failure's
`errno` equals `EACCES`, but comparing it requires evaluating
`errno.EACCES`, i.e. resolving the global `errno` — and the intended
chmod (`stat.S_IRWXU | stat.S_IRWXG | stat.S_IRWXO`) would likewise need
the global `stat`. -/
def remove_read_only (funcIsRemoval errnoIsEACCES : Bool) : Except PyErr Unit :=
  if funcIsRemoval then
    match lookupGlobal "errno" with
    | .error e => .error e
    | .ok _ =>
      if errnoIsEACCES then
        match lookupGlobal "stat" with
        | .error e => .error e
        | .ok _ => .ok ()   -- os.chmod(path, 0o777); func(path)  — the single bounded retry
      else .error .reraisedRemovalError
  else .error .reraisedRemovalError

/-- `rmtree(name)`: no-op when the directory does not exist; otherwise
`shutil.rmtree(name, ignore_errors=False, onerror=remove_read_only)`.
`hitsPermDenied` states whether the recursive removal encounters a
permission-denied (`EACCES`) failure from `os.rmdir`/`os.remove` on some
entry (e.g. a read-only entry); in that case `shutil.rmtree` invokes the
handler, and an exception from the handler aborts the removal. -/
def rmtree (dirHasEntries hitsPermDenied : Bool) : Except PyErr Unit :=
  if dirHasEntries then
    if hitsPermDenied then
      match remove_read_only true true with
      | .ok _ => .ok ()
      | .error e => .error e
    else .ok ()
  else .ok ()

/-! ## World, effects, Platform Argument Synthesizer, Native Build Driver -/

/-- The external world a build invocation observes: the host platform,
interpreter width (`sys.maxsize > 2**32`), logical cpu count, whether the
`cmake` executable is on the path, what its `--version` query prints, how
the removal behaves, and the exit statuses the two tool invocations would
return. -/
structure World where
  platformSystem : String
  is64bit : Bool
  cpuCount : Nat
  cmakeFound : Bool
  cmakeVersionOutput : List Char
  removalPermDenied : Bool
  configureExit : Int
  buildExit : Int
deriving Repr, DecidableEq

/-- Observable external actions, in program order. -/
inductive Effect where
  /-- `shutil.rmtree` of the build folder (attempted). -/
  | removeTree (path : String)
  /-- `os.makedirs` of the build folder (creates intermediates). -/
  | makeDirs (path : String)
  /-- `subprocess.check_output(['cmake', '--version'])`. -/
  | versionQuery
  /-- `subprocess.check_call(['cmake', sourcedir] + cmake_args, cwd=...)`. -/
  | callConfigure (cmd : List String) (cwd : String)
  /-- `subprocess.check_call(['cmake', '--build', '.'] + build_args, cwd=...)`. -/
  | callBuild (cmd : List String) (cwd : String)
deriving Repr, DecidableEq

/-- `int(ceil(cpu_count / 2.0))` (exact: cpu counts are far below 2^53,
where float division by 2 is exact). -/
def jobCount (n : Nat) : Nat := (n + 1) / 2

/-- Lines 122-141 of `build_extension`: the platform-dependent argument
vectors for the configure and build invocations. -/
def synthesize_args (w : World) (extdir pythonExe : String) (extraOptions : List String)
    (debug : Bool) : List String × List String :=
  let cmake_args := ["-DCMAKE_LIBRARY_OUTPUT_DIRECTORY=" ++ extdir,
                     "-DPYTHON_EXECUTABLE=" ++ pythonExe] ++ extraOptions
  let cfg : String := if debug then "Debug" else "Release"
  let build_args : List String := ["--config", cfg]
  if w.platformSystem = "Windows" then
    (cmake_args ++ ["-DCMAKE_LIBRARY_OUTPUT_DIRECTORY_" ++ pyUpper cfg ++ "=" ++ extdir]
       ++ (if w.is64bit then ["-A", "x64"] else []),
     build_args ++ ["--", "/m"])
  else
    (cmake_args ++ ["-DCMAKE_BUILD_TYPE=" ++ cfg],
     build_args ++ ["--", "-j" ++ toString (jobCount w.cpuCount)])

/-- `CMakeBuild.build_extension` (lines 121-153): synthesize arguments,
prepare the build folder (forced clean when `clean`), then run configure
and, only if it succeeded, build.  Returns the effect trace and the
outcome. -/
def build_extension (w : World) (extdir pythonExe sourceDir buildFolder : String)
    (extraOptions : List String) (debug clean bfExists : Bool) :
    List Effect × Except PyErr Unit :=
  let ab := synthesize_args w extdir pythonExe extraOptions debug
  -- `if clean_build_folder: rmtree(build_folder)`
  let rmResult : Except PyErr Unit :=
    if clean then rmtree bfExists w.removalPermDenied else .ok ()
  let fsTrace := if clean && bfExists then [Effect.removeTree buildFolder] else []
  match rmResult with
  | .error e => (fsTrace, .error e)
  | .ok _ =>
    -- `if not os.path.exists(build_folder): os.makedirs(build_folder)`
    let mkTrace := if bfExists && !clean then [] else [Effect.makeDirs buildFolder]
    let confCmd := ["cmake", sourceDir] ++ ab.1
    let preTrace := fsTrace ++ mkTrace ++ [Effect.callConfigure confCmd buildFolder]
    if w.cmakeFound = false then (preTrace, .error .fileNotFound)
    else if w.configureExit ≠ 0 then (preTrace, .error (.configureFailed w.configureExit))
    else
      let buildCmd := ["cmake", "--build", "."] ++ ab.2
      let fullTrace := preTrace ++ [Effect.callBuild buildCmd buildFolder]
      if w.buildExit ≠ 0 then (fullTrace, .error (.buildFailed w.buildExit))
      else (fullTrace, .ok ())

/-- Is an effect a filesystem mutation? -/
def isFsEffect : Effect → Bool
  | .removeTree _ => true
  | .makeDirs _ => true
  | _ => false

/-- Is an effect the build-mode invocation of the tool? -/
def isBuildCall : Effect → Bool
  | .callBuild _ _ => true
  | _ => false

/-- Is an effect the configure invocation of the tool? -/
def isConfigureCall : Effect → Bool
  | .callConfigure _ _ => true
  | _ => false

/-- Is an effect a `shutil.rmtree` attempt? -/
def isRemoveTree : Effect → Bool
  | .removeTree _ => true
  | _ => false

/-- One `CMakeExtension`: its name and `sourcedir`, together with the
`extdir` computed from `get_ext_fullpath(ext.name)`. -/
structure ExtSpec where
  name : String
  sourcedir : String
  extdir : String
deriving Repr, DecidableEq

/-! ### Version parsing (`get_cmake_version`, lines 105-111) -/

/-- Does `p` occur at the head of `l`? -/
def startsWith : List Char → List Char → Bool
  | [], _ => true
  | _ :: _, [] => false
  | p :: ps, c :: cs => p = c && startsWith ps cs

/-- Characters matched by `[\d.]`. -/
def isVersionChar (c : Char) : Bool := c.isDigit || c = '.'

/-- `re.search(r'version\s*([\d.]+)', out)`: at each position in turn try
the literal `version`, then `\s*` (greedy whitespace), then a non-empty
greedy run of `[\d.]`; on failure resume the search one position later. -/
def extractVersionGo : List Char → Option (List Char)
  | [] => none
  | c :: cs =>
    if startsWith "version".data (c :: cs) then
      let cap := (((c :: cs).drop 7).dropWhile Char.isWhitespace).takeWhile isVersionChar
      if cap = [] then extractVersionGo cs else some cap
    else extractVersionGo cs

def extractVersion (out : List Char) : Option (List Char) := extractVersionGo out

/-- `distutils.version.LooseVersion` on a digits-and-dots token keeps the
maximal digit runs as integers (the dots are separators and collapse). -/
def digitRunsAux : List Char → Nat → Bool → List Nat
  | [], acc, inRun => if inRun then [acc] else []
  | c :: cs, acc, inRun =>
    if c.isDigit then digitRunsAux cs (acc * 10 + (c.toNat - 48)) true
    else if inRun then acc :: digitRunsAux cs 0 false
    else digitRunsAux cs 0 false

def digitRuns (l : List Char) : List Nat := digitRunsAux l 0 false

/-- Python list comparison on the parsed components: lexicographic, a
strict pre-stretch being smaller. -/
def lexLess : List Nat → List Nat → Bool
  | [], [] => false
  | [], _ :: _ => true
  | _ :: _, [] => false
  | a :: as, b :: bs => if a < b then true else if b < a then false else lexLess as bs

/-- `CMakeBuild.get_cmake_version`: query the tool (re-raising a missing
executable as the `RuntimeError` that names every extension), then extract
the version token from its output. -/
def get_cmake_version (w : World) (extNames : List String) : Except PyErr (List Char) :=
  if w.cmakeFound then
    match extractVersion w.cmakeVersionOutput with
    | some v => .ok v
    | none => .error .versionPatternNotFound
  else .error (.toolNotFound extNames)

/-- The `for ext in self.extensions: self.build_extension(ext)` loop;
a raised exception aborts the remaining iterations. -/
def buildAll (w : World) (pythonExe buildFolder : String) (extra : List String)
    (debug clean bfExists : Bool) : List ExtSpec → List Effect × Except PyErr Unit
  | [] => ([], .ok ())
  | e :: rest =>
    let r := build_extension w e.extdir pythonExe e.sourcedir buildFolder extra debug clean bfExists
    match r.2 with
    | .error err => (r.1, .error err)
    | .ok _ =>
      let r2 := buildAll w pythonExe buildFolder extra debug clean bfExists rest
      (r.1 ++ r2.1, r2.2)

/-- `CMakeBuild.run` (lines 113-119): only on Windows, query the tool
version and require at least `3.1.0`; then build every extension. -/
def CMakeBuild_run (w : World) (exts : List ExtSpec) (pythonExe buildFolder : String)
    (extra : List String) (debug clean bfExists : Bool) :
    List Effect × Except PyErr Unit :=
  if w.platformSystem = "Windows" then
    match get_cmake_version w (exts.map ExtSpec.name) with
    | .error e => ([Effect.versionQuery], .error e)
    | .ok v =>
      if lexLess (digitRuns v) [3, 1, 0] then
        ([Effect.versionQuery], .error .unsupportedToolVersion)
      else
        let r := buildAll w pythonExe buildFolder extra debug clean bfExists exts
        (Effect.versionQuery :: r.1, r.2)
  else buildAll w pythonExe buildFolder extra debug clean bfExists exts

/-! ## Version Reconciler (`read_version_from_cmakelists`, lines 171-177)

The file content is modelled as its list of lines (`re.findall` patterns
with `.` cannot cross a newline, so each match lives inside one line).
For the pattern `set\(CPACK_PACKAGE_VERSION_<F>.*\"(.*)\"` on a line: the
match starts at the first occurrence of the literal, and after greedy
backtracking the group captures the text between the last two quote
characters of the remainder (at least two quotes are required). -/

/-- The suffix after the first occurrence of `pat`, if `pat` occurs. -/
def dropAfterPattern (pat : List Char) : List Char → Option (List Char)
  | [] => none
  | c :: cs =>
    if startsWith pat (c :: cs) then some ((c :: cs).drop pat.length)
    else dropAfterPattern pat cs

/-- The greedy capture of `.*\"(.*)\"` applied to `rest`: the segment
between the penultimate and final quote. -/
def captureQuoted (rest : List Char) : Option (List Char) :=
  let segs := rest.splitOn '\"'
  if h : 3 ≤ segs.length then some (segs.get ⟨segs.length - 2, by omega⟩) else none

/-- One line's match for field `field`. -/
def lineCapture (field : String) (line : List Char) : Option (List Char) :=
  match dropAfterPattern ("set(CPACK_PACKAGE_VERSION_" ++ field).data line with
  | none => none
  | some rest => captureQuoted rest

/-- `re.findall(pattern, text)[0]` modelled as the first matching line's
capture (`none` when `findall` returns the empty list, in which case the
indexing raises). -/
def findField (field : String) : List (List Char) → Option (List Char)
  | [] => none
  | line :: rest =>
    match lineCapture field line with
    | some v => some v
    | none => findField field rest

/-- `read_version_from_cmakelists`: the three extractions in source order;
`findall(...)[0]` on an empty result raises `IndexError` at that field's
line, modelled as `versionFieldMissing` of that field. -/
def read_version_from_cmakelists (lines : List (List Char)) : Except PyErr String :=
  match findField "MAJOR" lines with
  | none => .error (.versionFieldMissing "MAJOR")
  | some major =>
    match findField "MINOR" lines with
    | none => .error (.versionFieldMissing "MINOR")
    | some minor =>
      match findField "PATCH" lines with
      | none => .error (.versionFieldMissing "PATCH")
      | some patch =>
        .ok (String.mk major ++ "." ++ String.mk minor ++ "." ++ String.mk patch)

/-! ### Scan lemmas -/

lemma valueFlags_ne_clean {f : String} (hf : f ∈ valueFlags) : f ≠ "--clean" := by
  rcases (by simpa [valueFlags] using hf : f = "--yes" ∨ f = "--no" ∨ f = "--compiler-flags")
    with rfl | rfl | rfl <;> decide

lemma scanArgs_cons (s : ScanState) (a : String) (rest : List String) :
    scanArgs s (a :: rest) = scanArgs (scanStep s a) rest := rfl

lemma scanArgs_append_list (s : ScanState) (l₁ l₂ : List String) :
    scanArgs s (l₁ ++ l₂) = scanArgs (scanArgs s l₁) l₂ := by
  induction l₁ generalizing s with
  | nil => rfl
  | cons a rest ih => simp [scanArgs_cons, ih]

lemma scanStep_plain {a : String} (h1 : a ∉ valueFlags) (h2 : a ≠ "--clean")
    (o : List String) (c : Bool) (A : List String) :
    scanStep ⟨none, o, c, A⟩ a = ⟨none, o, c, A⟩ := by
  simp [scanStep, h1, h2]

lemma scanStep_clean (o : List String) (c : Bool) (A : List String) :
    scanStep ⟨none, o, c, A⟩ "--clean" = ⟨none, o, true, A.erase "--clean"⟩ := rfl

lemma scanStep_yes (o : List String) (c : Bool) (A : List String) :
    scanStep ⟨none, o, c, A⟩ "--yes" = ⟨some "yes", o, c, A.erase "--yes"⟩ := rfl

lemma scanStep_no (o : List String) (c : Bool) (A : List String) :
    scanStep ⟨none, o, c, A⟩ "--no" = ⟨some "no", o, c, A.erase "--no"⟩ := rfl

lemma scanStep_cf (o : List String) (c : Bool) (A : List String) :
    scanStep ⟨none, o, c, A⟩ "--compiler-flags" =
      ⟨some "compiler-flags", o, c, A.erase "--compiler-flags"⟩ := rfl

lemma scanStep_val_yes (v : String) (o : List String) (c : Bool) (A : List String) :
    scanStep ⟨some "yes", o, c, A⟩ v =
      ⟨none, o ++ ["-D" ++ pyStrip v ++ "=yes"], c, A.erase v⟩ := rfl

lemma scanStep_val_no (v : String) (o : List String) (c : Bool) (A : List String) :
    scanStep ⟨some "no", o, c, A⟩ v =
      ⟨none, o ++ ["-D" ++ pyStrip v ++ "=no"], c, A.erase v⟩ := rfl

lemma scanStep_val_cf (v : String) (o : List String) (c : Bool) (A : List String) :
    scanStep ⟨some "compiler-flags", o, c, A⟩ v =
      ⟨none, o ++ ["-DCMAKE_CXX_FLAGS=" ++ pyStrip v], c, A.erase v⟩ := rfl

/-- After scanning a well-formed suffix starting with no pending flag, the
pending marker is again clear, the emitted switches are appended in scan
order (exactly `specOpts`), and the clean flag is or-ed with `specClean`.
The mutated argv `A` does not influence these components. -/
lemma scanArgs_wf_components {l : List String} (hwf : WF l) :
    ∀ (o : List String) (c : Bool) (A : List String),
      (scanArgs ⟨none, o, c, A⟩ l).optKey = none ∧
      (scanArgs ⟨none, o, c, A⟩ l).opts = o ++ specOpts l ∧
      (scanArgs ⟨none, o, c, A⟩ l).clean = (c || specClean l) := by
  induction hwf with
  | nil => intro o c A; simp [scanArgs, specOpts, specClean]
  | plain a rest h1 h2 h ih =>
    intro o c A
    rw [scanArgs_cons, scanStep_plain h1 h2]
    have h1' : a ≠ "--yes" ∧ a ≠ "--no" ∧ a ≠ "--compiler-flags" := by
      simpa [valueFlags] using h1
    cases rest with
    | nil => simp [scanArgs, specOpts, specClean, h2]
    | cons b r =>
      rcases ih o c A with ⟨hk, ho, hc⟩
      refine ⟨hk, ?_, ?_⟩
      · rw [ho]; simp [specOpts, h2, h1'.1, h1'.2.1, h1'.2.2]
      · rw [hc]; simp [specClean, h2, h1]
  | clean rest h ih =>
    intro o c A
    rw [scanArgs_cons, scanStep_clean]
    rcases ih o true (A.erase "--clean") with ⟨hk, ho, hc⟩
    refine ⟨hk, ?_, ?_⟩
    · rw [ho]; cases rest <;> simp [specOpts]
    · rw [hc]; cases rest <;> simp [specClean]
  | flagval f v rest hf h ih =>
    intro o c A
    rcases (by simpa [valueFlags] using hf : f = "--yes" ∨ f = "--no" ∨ f = "--compiler-flags")
      with rfl | rfl | rfl
    · rw [scanArgs_cons, scanStep_yes, scanArgs_cons, scanStep_val_yes]
      rcases ih (o ++ ["-D" ++ pyStrip v ++ "=yes"]) c _ with ⟨hk, ho, hc⟩
      exact ⟨hk, by rw [ho]; simp [specOpts], by rw [hc]; simp [specClean, valueFlags]⟩
    · rw [scanArgs_cons, scanStep_no, scanArgs_cons, scanStep_val_no]
      rcases ih (o ++ ["-D" ++ pyStrip v ++ "=no"]) c _ with ⟨hk, ho, hc⟩
      exact ⟨hk, by rw [ho]; simp [specOpts], by rw [hc]; simp [specClean, valueFlags]⟩
    · rw [scanArgs_cons, scanStep_cf, scanArgs_cons, scanStep_val_cf]
      rcases ih (o ++ ["-DCMAKE_CXX_FLAGS=" ++ pyStrip v]) c _ with ⟨hk, ho, hc⟩
      exact ⟨hk, by rw [ho]; simp [specOpts], by rw [hc]; simp [specClean, valueFlags]⟩

/-- Each loop iteration removes at most one occurrence of its own token, so
as long as every string occurs at least as often in the mutated argv as in
the remaining input, a disjoint tail `B` of the argv is never touched. -/
lemma scanArgs_argv_append :
    ∀ (l : List String) (p : Option String) (o : List String) (c : Bool) (A B : List String),
      (∀ t, l.count t ≤ A.count t) →
      (scanArgs ⟨p, o, c, A ++ B⟩ l).argv = (scanArgs ⟨p, o, c, A⟩ l).argv ++ B := by
  intro l
  induction l with
  | nil => intro p o c A B _; simp [scanArgs]
  | cons a rest ih =>
    intro p o c A B h
    have haA : a ∈ A := by
      have ha := h a
      rw [List.count_cons_self] at ha
      exact List.count_pos_iff.mp (by omega)
    have hrest : ∀ t, rest.count t ≤ (A.erase a).count t := by
      intro t
      by_cases ht : t = a
      · subst ht
        have := h t
        rw [List.count_cons_self] at this
        rw [List.count_erase_self]
        omega
      · have := h t
        rw [List.count_cons_of_ne ht] at this
        rw [List.count_erase_of_ne ht]
        omega
    have hrest' : ∀ t, rest.count t ≤ A.count t := by
      intro t
      have := h t
      rw [List.count_cons] at this
      split at this <;> omega
    cases p with
    | some k =>
      rw [scanArgs_cons, scanArgs_cons]
      simp only [scanStep]
      rw [List.erase_append_left B haA]
      exact ih none _ c (A.erase a) B hrest
    | none =>
      by_cases hc : a = "--clean"
      · subst hc
        rw [scanArgs_cons, scanArgs_cons, scanStep_clean, scanStep_clean,
          List.erase_append_left B haA]
        exact ih none o true (A.erase "--clean") B hrest
      · by_cases hfl : a ∈ valueFlags
        · rw [scanArgs_cons, scanArgs_cons]
          simp only [scanStep, hc, if_false, hfl, if_true, ite_true, if_neg hc, if_pos hfl]
          rw [List.erase_append_left B haA]
          exact ih (some (pyLower (pyDrop 2 a))) o c (A.erase a) B hrest
        · rw [scanArgs_cons, scanArgs_cons, scanStep_plain hfl hc, scanStep_plain hfl hc]
          exact ih none o c A B hrest'

/-- Erasing changes a count by one exactly when the erased string is the
counted one (in truncated `Nat` subtraction this needs no membership). -/
lemma count_erase_ite (a f : String) (X : List String) :
    (X.erase a).count f = X.count f - (if f = a then 1 else 0) := by
  by_cases hfa : f = a
  · subst hfa; rw [List.count_erase_self]; simp
  · rw [List.count_erase_of_ne hfa]; simp [hfa]

lemma count_cons_ite (a f : String) (l : List String) :
    (a :: l).count f = l.count f + (if f = a then 1 else 0) := by
  by_cases hfa : f = a
  · subst hfa; rw [List.count_cons_self]; simp
  · rw [List.count_cons_of_ne hfa]; simp [hfa]

/-- Every occurrence of a value-consuming flag string is consumed by the
scan (either as a flag or as a pending flag's value), so the mutated argv
loses exactly one occurrence of it per occurrence in the input. -/
lemma scanArgs_count_flag :
    ∀ (l : List String) (p : Option String) (o : List String) (c : Bool) (A : List String)
      (f : String), f ∈ valueFlags → l.count f ≤ A.count f →
      ((scanArgs ⟨p, o, c, A⟩ l).argv).count f = A.count f - l.count f := by
  intro l
  induction l with
  | nil => intro p o c A f _ _; simp [scanArgs]
  | cons a rest ih =>
    intro p o c A f hf h
    rw [count_cons_ite a f rest] at h
    -- the branch where the head is consumed and erased
    have consumed : ∀ (p' : Option String) (o' : List String) (c' : Bool),
        ((scanArgs ⟨p', o', c', A.erase a⟩ rest).argv).count f
          = A.count f - (a :: rest).count f := by
      intro p' o' c'
      have hr : rest.count f ≤ (A.erase a).count f := by
        rw [count_erase_ite a f A]
        by_cases hfa : f = a
        · simp only [if_pos hfa] at h ⊢
          omega
        · simp only [if_neg hfa] at h ⊢
          omega
      rw [ih p' o' c' (A.erase a) f hf hr, count_erase_ite a f A, count_cons_ite a f rest]
      by_cases hfa : f = a
      · simp only [if_pos hfa] at h ⊢
        omega
      · simp only [if_neg hfa] at h ⊢
        omega
    cases p with
    | some k =>
      rw [scanArgs_cons]
      simp only [scanStep]
      exact consumed none _ c
    | none =>
      by_cases hc : a = "--clean"
      · subst hc
        rw [scanArgs_cons, scanStep_clean]
        exact consumed none o true
      · by_cases hfl : a ∈ valueFlags
        · rw [scanArgs_cons]
          simp only [scanStep, if_neg hc, if_pos hfl]
          exact consumed (some (pyLower (pyDrop 2 a))) o c
        · rw [scanArgs_cons, scanStep_plain hfl hc]
          have haf : f ≠ a := fun hfa => hfl (hfa ▸ hf)
          have h' : rest.count f ≤ A.count f := by split at h <;> omega
          rw [ih none o c A f hf h', count_cons_ite a f rest]
          simp [haf]

/-- With pairwise-distinct tokens, each `sys.argv.remove(arg)` deletes the
occurrence being processed, so the mutated argv is exactly the already
kept part `K` followed by the spec-side filtering of the remaining input. -/
lemma scanArgs_argv_nodup {l : List String} (hwf : WF l) :
    ∀ (K o : List String) (c : Bool), l.Nodup → (∀ a ∈ l, a ∉ K) →
      (scanArgs ⟨none, o, c, K ++ l⟩ l).argv = K ++ specFilter l := by
  induction hwf with
  | nil => intro K o c _ _; simp [scanArgs, specFilter]
  | plain a rest h1 h2 h ih =>
    intro K o c hnd hK
    rw [scanArgs_cons, scanStep_plain h1 h2]
    have hKa : K ++ a :: rest = (K ++ [a]) ++ rest := by simp
    have hres : (scanArgs ⟨none, o, c, (K ++ [a]) ++ rest⟩ rest).argv
        = (K ++ [a]) ++ specFilter rest := by
      refine ih (K ++ [a]) o c hnd.of_cons ?_
      intro b hb
      simp only [List.mem_append, List.mem_singleton]
      rintro (hbK | rfl)
      · exact hK b (List.mem_cons_of_mem a hb) hbK
      · exact (List.nodup_cons.mp hnd).1 hb
    rw [hKa, hres]
    cases rest with
    | nil => simp [specFilter, h1, h2]
    | cons b r => simp [specFilter, h1, h2]
  | clean rest h ih =>
    intro K o c hnd hK
    rw [scanArgs_cons, scanStep_clean]
    have hKc : "--clean" ∉ K := hK _ (List.mem_cons_self _ _)
    rw [List.erase_append_right _ hKc, List.erase_cons_head]
    have hres := ih K o true hnd.of_cons (fun b hb => hK b (List.mem_cons_of_mem _ hb))
    rw [hres]
    cases rest with
    | nil => simp [specFilter]
    | cons b r => simp [specFilter]
  | flagval f v rest hf h ih =>
    intro K o c hnd hK
    have hfK : f ∉ K := hK _ (List.mem_cons_self _ _)
    have hvK : v ∉ K := hK _ (List.mem_cons_of_mem _ (List.mem_cons_self _ _))
    have hnd' : rest.Nodup := hnd.of_cons.of_cons
    have hK' : ∀ b ∈ rest, b ∉ K := fun b hb =>
      hK b (List.mem_cons_of_mem _ (List.mem_cons_of_mem _ hb))
    have hne : f ≠ "--clean" := valueFlags_ne_clean hf
    have hsf : specFilter (f :: v :: rest) = specFilter rest := by
      simp [specFilter, hne, hf]
    rcases (by simpa [valueFlags] using hf : f = "--yes" ∨ f = "--no" ∨ f = "--compiler-flags")
      with rfl | rfl | rfl <;>
    · rw [scanArgs_cons]
      first
      | rw [scanStep_yes] | rw [scanStep_no] | rw [scanStep_cf]
      rw [List.erase_append_right _ hfK, List.erase_cons_head, scanArgs_cons]
      first
      | rw [scanStep_val_yes] | rw [scanStep_val_no] | rw [scanStep_val_cf]
      rw [List.erase_append_right _ hvK, List.erase_cons_head, hsf]
      exact ih K _ c hnd' hK'

/-- Spec-side filtering only keeps tokens of the input. -/
lemma specFilter_subset {l : List String} (hwf : WF l) : ∀ t ∈ specFilter l, t ∈ l := by
  induction hwf with
  | nil => simp [specFilter]
  | plain a rest h1 h2 h ih =>
    intro t ht
    cases rest with
    | nil =>
      simp [specFilter, h1, h2] at ht
      simp [ht]
    | cons b r =>
      simp only [specFilter, if_neg h2, if_neg h1, List.mem_cons] at ht
      rcases ht with rfl | ht
      · exact List.mem_cons_self _ _
      · exact List.mem_cons_of_mem _ (ih t ht)
  | clean rest h ih =>
    intro t ht
    cases rest with
    | nil => simp [specFilter] at ht
    | cons b r =>
      simp only [specFilter, if_pos rfl] at ht
      exact List.mem_cons_of_mem _ (ih t ht)
  | flagval f v rest hf h ih =>
    intro t ht
    rw [show specFilter (f :: v :: rest) = specFilter rest by
      simp [specFilter, valueFlags_ne_clean hf, hf]] at ht
    exact List.mem_cons_of_mem _ (List.mem_cons_of_mem _ (ih t ht))

/-- Spec-side consumed values are tokens of the input. -/
lemma specValues_subset {l : List String} (hwf : WF l) : ∀ t ∈ specValues l, t ∈ l := by
  induction hwf with
  | nil => simp [specValues]
  | plain a rest h1 h2 h ih =>
    intro t ht
    cases rest with
    | nil => simp [specValues] at ht
    | cons b r =>
      simp only [specValues, if_neg h2, if_neg h1] at ht
      exact List.mem_cons_of_mem _ (ih t ht)
  | clean rest h ih =>
    intro t ht
    cases rest with
    | nil => simp [specValues] at ht
    | cons b r =>
      simp only [specValues, if_pos rfl] at ht
      exact List.mem_cons_of_mem _ (ih t ht)
  | flagval f v rest hf h ih =>
    intro t ht
    rw [show specValues (f :: v :: rest) = v :: specValues rest by
      simp [specValues, valueFlags_ne_clean hf, hf]] at ht
    rcases List.mem_cons.mp ht with rfl | ht
    · exact List.mem_cons_of_mem _ (List.mem_cons_self _ _)
    · exact List.mem_cons_of_mem _ (List.mem_cons_of_mem _ (ih t ht))

/-- On pairwise-distinct well-formed input, no kept token is one of the
four flags or one of the consumed value tokens. -/
lemma specFilter_excludes {l : List String} (hwf : WF l) (hnd : l.Nodup) :
    ∀ t ∈ specFilter l, t ∉ flagTokens ∧ t ∉ specValues l := by
  induction hwf with
  | nil => simp [specFilter]
  | plain a rest h1 h2 h ih =>
    intro t ht
    have hrec : ∀ t ∈ specFilter rest, t ∉ flagTokens ∧ t ∉ specValues rest := ih hnd.of_cons
    have hsv : specValues (a :: rest) = specValues rest := by
      cases rest with
      | nil => simp [specValues]
      | cons b r => simp [specValues, h1, h2]
    have hsf : t = a ∨ t ∈ specFilter rest := by
      cases rest with
      | nil => simp [specFilter, h1, h2] at ht; exact Or.inl ht
      | cons b r =>
        simp only [specFilter, if_neg h2, if_neg h1, List.mem_cons] at ht
        exact ht
    rw [hsv]
    rcases hsf with rfl | hmem
    · constructor
      · simp [flagTokens, h2]
        simpa [valueFlags] using h1
      · intro hv
        exact (List.nodup_cons.mp hnd).1 (specValues_subset h t hv)
    · exact hrec t hmem
  | clean rest h ih =>
    intro t ht
    have hsf : t ∈ specFilter rest := by
      cases rest with
      | nil => simp [specFilter] at ht
      | cons b r => simpa only [specFilter, if_pos rfl] using ht
    have hsv : specValues ("--clean" :: rest) = specValues rest := by
      cases rest with
      | nil => simp [specValues]
      | cons b r => simp [specValues]
    rw [hsv]
    exact ih hnd.of_cons t hsf
  | flagval f v rest hf h ih =>
    intro t ht
    rw [show specFilter (f :: v :: rest) = specFilter rest by
      simp [specFilter, valueFlags_ne_clean hf, hf]] at ht
    rw [show specValues (f :: v :: rest) = v :: specValues rest by
      simp [specValues, valueFlags_ne_clean hf, hf]]
    have hnd' : rest.Nodup := hnd.of_cons.of_cons
    refine ⟨(ih hnd' t ht).1, ?_⟩
    intro hv
    rcases List.mem_cons.mp hv with rfl | hv'
    · exact (List.nodup_cons.mp hnd.of_cons).1 (specFilter_subset h t ht)
    · exact (ih hnd' t ht).2 hv'

/-- The spec-side filtered list is a sublist of the input (tokens kept in
their original relative order). -/
lemma specFilter_sublist {l : List String} (hwf : WF l) : List.Sublist (specFilter l) l := by
  induction hwf with
  | nil => simp [specFilter]
  | plain a rest h1 h2 h ih =>
    cases rest with
    | nil => simp [specFilter, h1, h2]
    | cons b r =>
      simpa only [specFilter, if_neg h2, if_neg h1] using ih.cons₂ a
  | clean rest h ih =>
    cases rest with
    | nil => simp [specFilter]
    | cons b r => simpa only [specFilter, if_pos rfl] using ih.cons "--clean"
  | flagval f v rest hf h ih =>
    rw [show specFilter (f :: v :: rest) = specFilter rest by
      simp [specFilter, valueFlags_ne_clean hf, hf]]
    exact (ih.cons v).cons f

lemma scanStep_flag_state (s : ScanState) (f : String) (hk : s.optKey = none)
    (hf : f ∈ valueFlags) :
    scanStep s f = ⟨some (pyLower (pyDrop 2 f)), s.opts, s.clean, s.argv.erase f⟩ := by
  obtain ⟨k, o, c, A⟩ := s
  simp only at hk
  subst hk
  simp [scanStep, valueFlags_ne_clean hf, hf]

/-! ## Claim theorems -/

/-- C1 (amended: the tokens are additionally assumed pairwise distinct).
For a well-formed flag sequence with pairwise-distinct tokens, the argument
list left in `sys.argv` after extraction is exactly the spec-side filter:
it contains none of `--clean`/`--yes`/`--no`/`--compiler-flags` nor any
consumed value token, and it keeps every other token in its original
relative order (`specFilter` is a sublist of the input). -/
theorem claim_C1_option_extractor_filter (argv : List String) (hwf : WF argv)
    (hnd : argv.Nodup) :
    (get_extra_cmake_options argv).argv = specFilter argv ∧
    List.Sublist (specFilter argv) argv ∧
    ∀ t ∈ (get_extra_cmake_options argv).argv, t ∉ flagTokens ∧ t ∉ specValues argv := by
  have h1 : (get_extra_cmake_options argv).argv = specFilter argv := by
    have h := scanArgs_argv_nodup hwf [] [] false hnd (by simp)
    simpa [get_extra_cmake_options] using h
  refine ⟨h1, specFilter_sublist hwf, ?_⟩
  intro t ht
  rw [h1] at ht
  exact specFilter_excludes hwf hnd t ht

/-- C1 witness: a concrete well-formed, duplicate-free command line. -/
theorem claim_C1_witness :
    (get_extra_cmake_options ["setup.py", "--yes", "FOO", "install"]).argv
      = specFilter ["setup.py", "--yes", "FOO", "install"] ∧
    List.Sublist (specFilter ["setup.py", "--yes", "FOO", "install"])
      ["setup.py", "--yes", "FOO", "install"] ∧
    ∀ t ∈ (get_extra_cmake_options ["setup.py", "--yes", "FOO", "install"]).argv,
      t ∉ flagTokens ∧ t ∉ specValues ["setup.py", "--yes", "FOO", "install"] :=
  claim_C1_option_extractor_filter _
    (WF.plain "setup.py" _ (by decide) (by decide)
      (WF.flagval "--yes" "FOO" _ (by decide)
        (WF.plain "install" _ (by decide) (by decide) WF.nil)))
    (by decide)

/-- C1 counterexample: `["a", "b", "--yes", "a"]` is well-formed (the one
flag is immediately followed by its value token `"a"`), yet
`sys.argv.remove("a")` deletes the *first* `"a"`, so the filtered list is
`["b", "a"]`: it still contains the consumed value token `"a"` and the
other tokens `"a", "b"` are no longer in their original relative order. -/
theorem claim_C1_counterexample :
    WF ["a", "b", "--yes", "a"] ∧
    ¬((get_extra_cmake_options ["a", "b", "--yes", "a"]).argv
        = specFilter ["a", "b", "--yes", "a"] ∧
      ∀ t ∈ (get_extra_cmake_options ["a", "b", "--yes", "a"]).argv,
        t ∉ flagTokens ∧ t ∉ specValues ["a", "b", "--yes", "a"]) :=
  ⟨WF.plain "a" _ (by decide) (by decide)
      (WF.plain "b" _ (by decide) (by decide)
        (WF.flagval "--yes" "a" _ (by decide) WF.nil)),
    by decide⟩

/-- C7: the documented command line yields exactly the three switches in
flag order, and in general on well-formed input the emitted switch list is
`specOpts`, which lists one switch per value-consuming flag in the order
the flags appear in the argument list. -/
theorem claim_C7_switch_order :
    (get_extra_cmake_options
        ["--yes", "FOO", "--no", "BAR", "--compiler-flags", "-O2 -Wall"]).opts
      = ["-DFOO=yes", "-DBAR=no", "-DCMAKE_CXX_FLAGS=-O2 -Wall"] ∧
    ∀ l, WF l → (get_extra_cmake_options l).opts = specOpts l := by
  refine ⟨by decide, ?_⟩
  intro l hwf
  have h := (scanArgs_wf_components hwf [] false l).2.1
  simpa [get_extra_cmake_options] using h

/-- C7 witness: the universally quantified part at a concrete input. -/
theorem claim_C7_witness :
    (get_extra_cmake_options ["--yes", "USE_AVX_INSTRUCTIONS"]).opts
      = specOpts ["--yes", "USE_AVX_INSTRUCTIONS"] :=
  claim_C7_switch_order.2 _
    (WF.flagval "--yes" "USE_AVX_INSTRUCTIONS" [] (by decide) WF.nil)

/-- C9: a value-consuming flag as the final token with no following value
is harmless: the scan (which iterates over a copy, so there is no
out-of-range indexing) terminates with the same switches, clean flag, and
filtered argument list as without the dangling flag, the dangling flag
itself having been removed from the list and no switch emitted for it. -/
theorem claim_C9_dangling_flag (xs : List String) (f : String) (hf : f ∈ valueFlags)
    (hwf : WF xs) :
    (get_extra_cmake_options (xs ++ [f])).opts = (get_extra_cmake_options xs).opts ∧
    (get_extra_cmake_options (xs ++ [f])).clean = (get_extra_cmake_options xs).clean ∧
    (get_extra_cmake_options (xs ++ [f])).argv = (get_extra_cmake_options xs).argv ∧
    f ∉ (get_extra_cmake_options (xs ++ [f])).argv := by
  have hrun : get_extra_cmake_options (xs ++ [f])
      = scanArgs (scanArgs ⟨none, [], false, xs ++ [f]⟩ xs) [f] := by
    rw [get_extra_cmake_options, scanArgs_append_list]
  obtain ⟨hk1, ho1, hc1⟩ := scanArgs_wf_components hwf [] false (xs ++ [f])
  obtain ⟨hk0, ho0, hc0⟩ := scanArgs_wf_components hwf [] false xs
  have hargv1 : (scanArgs ⟨none, [], false, xs ++ [f]⟩ xs).argv
      = (scanArgs ⟨none, [], false, xs⟩ xs).argv ++ [f] :=
    scanArgs_argv_append xs none [] false xs [f] (fun _ => le_refl _)
  have hcount : ((scanArgs ⟨none, [], false, xs⟩ xs).argv).count f
      = xs.count f - xs.count f :=
    scanArgs_count_flag xs none [] false xs f hf (le_refl _)
  have hnotmem : f ∉ (scanArgs ⟨none, [], false, xs⟩ xs).argv := by
    rw [← List.count_eq_zero]
    omega
  have hstep : scanArgs (scanArgs ⟨none, [], false, xs ++ [f]⟩ xs) [f]
      = ⟨some (pyLower (pyDrop 2 f)),
          (scanArgs ⟨none, [], false, xs ++ [f]⟩ xs).opts,
          (scanArgs ⟨none, [], false, xs ++ [f]⟩ xs).clean,
          ((scanArgs ⟨none, [], false, xs ++ [f]⟩ xs).argv).erase f⟩ := by
    rw [scanArgs_cons, scanStep_flag_state _ f hk1 hf]
    rfl
  have herase : ((scanArgs ⟨none, [], false, xs ++ [f]⟩ xs).argv).erase f
      = (scanArgs ⟨none, [], false, xs⟩ xs).argv := by
    rw [hargv1, List.erase_append_right _ hnotmem, List.erase_cons_head, List.append_nil]
  rw [hrun, hstep]
  refine ⟨?_, ?_, ?_, ?_⟩
  · rw [ho1]
    show _ = (get_extra_cmake_options xs).opts
    rw [get_extra_cmake_options, ho0]
  · rw [hc1]
    show _ = (get_extra_cmake_options xs).clean
    rw [get_extra_cmake_options, hc0]
  · rw [herase]
    rfl
  · show f ∉ ((scanArgs ⟨none, [], false, xs ++ [f]⟩ xs).argv).erase f
    rw [herase]
    exact hnotmem

/-- C9 witness: the dangling-flag property at a concrete input. -/
theorem claim_C9_witness :
    (get_extra_cmake_options (["install"] ++ ["--yes"])).opts
      = (get_extra_cmake_options ["install"]).opts ∧
    (get_extra_cmake_options (["install"] ++ ["--yes"])).clean
      = (get_extra_cmake_options ["install"]).clean ∧
    (get_extra_cmake_options (["install"] ++ ["--yes"])).argv
      = (get_extra_cmake_options ["install"]).argv ∧
    "--yes" ∉ (get_extra_cmake_options (["install"] ++ ["--yes"])).argv :=
  claim_C9_dangling_flag ["install"] "--yes" (by decide)
    (WF.plain "install" [] (by decide) (by decide) WF.nil)

/-- C2 (code bug): `prepare(path, clean=true)` on a directory whose
removal hits a permission-denied error does not chmod-and-retry — the
`remove_read_only` handler evaluates `errno.EACCES`, but setup.py never
binds a global `errno` (nor `stat`, which the chmod would need), so the
handler raises `NameError` and the forced clean fails instead. -/
theorem claim_C2_rmtree_name_error :
    rmtree true true = .error (.nameError "errno") ∧
    "errno" ∉ moduleGlobals ∧ "stat" ∉ moduleGlobals := by decide

/-- C3: whenever one of the three version-field patterns has no match,
`read_version_from_cmakelists` fails at the first missing field's
extraction (the `findall(...)[0]` indexing failure, modelled as
`versionFieldMissing` of that field); in particular a file with MAJOR and
MINOR lines but no PATCH line fails at the PATCH extraction. -/
theorem claim_C3_version_field_missing :
    (∀ lines, (findField "MAJOR" lines = none ∨ findField "MINOR" lines = none ∨
        findField "PATCH" lines = none) →
      ∃ f, f ∈ (["MAJOR", "MINOR", "PATCH"] : List String) ∧ findField f lines = none ∧
        read_version_from_cmakelists lines = .error (.versionFieldMissing f)) ∧
    (∀ lines, findField "PATCH" lines = none →
      (∃ x, findField "MAJOR" lines = some x) →
      (∃ y, findField "MINOR" lines = some y) →
      read_version_from_cmakelists lines = .error (.versionFieldMissing "PATCH")) := by
  constructor
  · intro lines hm
    cases hM : findField "MAJOR" lines with
    | none =>
      exact ⟨"MAJOR", by simp, hM, by simp [read_version_from_cmakelists, hM]⟩
    | some a =>
      cases hN : findField "MINOR" lines with
      | none =>
        exact ⟨"MINOR", by simp, hN, by simp [read_version_from_cmakelists, hM, hN]⟩
      | some b =>
        cases hP : findField "PATCH" lines with
        | none =>
          exact ⟨"PATCH", by simp, hP, by simp [read_version_from_cmakelists, hM, hN, hP]⟩
        | some c => rcases hm with h | h | h <;> simp_all
  · rintro lines hP ⟨x, hM⟩ ⟨y, hN⟩
    simp [read_version_from_cmakelists, hM, hN, hP]

/-- C3 witness: a config file with MAJOR and MINOR lines but no PATCH
line. -/
theorem claim_C3_witness :
    read_version_from_cmakelists
      ["set(CPACK_PACKAGE_VERSION_MAJOR \"19\")".data,
       "set(CPACK_PACKAGE_VERSION_MINOR \"24\")".data]
      = .error (.versionFieldMissing "PATCH") :=
  claim_C3_version_field_missing.2 _ (by decide)
    ⟨"19".data, by decide⟩ ⟨"24".data, by decide⟩

/-- C4: when the configure invocation exits with a non-zero status (and
the run reaches it: the tool is on the path and the optional forced clean
did not fail), the failure is `ConfigureFailed` carrying that exact exit
status, and the build invocation never appears in the effect trace. -/
theorem claim_C4_configure_failure_stops (w : World)
    (extdir pythonExe sourceDir buildFolder : String) (extraOptions : List String)
    (debug clean bfExists : Bool) (hfound : w.cmakeFound = true)
    (hperm : w.removalPermDenied = false) (hexit : w.configureExit ≠ 0) :
    (build_extension w extdir pythonExe sourceDir buildFolder extraOptions
        debug clean bfExists).2 = .error (.configureFailed w.configureExit) ∧
    ((build_extension w extdir pythonExe sourceDir buildFolder extraOptions
        debug clean bfExists).1).any isBuildCall = false := by
  have hrm : (if clean then rmtree bfExists w.removalPermDenied else Except.ok ())
      = Except.ok () := by
    rw [hperm]
    cases clean <;> cases bfExists <;> rfl
  constructor
  · simp only [build_extension, hrm]
    simp [hfound, hexit]
  · simp only [build_extension, hrm]
    simp only [hfound]
    simp [hexit, List.any_append, isBuildCall]
    intro x _ _ hx
    subst hx
    rfl

/-- C4 witness: a POSIX world whose configure step exits 1. -/
theorem claim_C4_witness :
    (build_extension ⟨"Linux", true, 8, true, [], false, 1, 0⟩
        "extdir" "python" "src" "build" [] false false true).2
      = .error (.configureFailed 1) ∧
    ((build_extension ⟨"Linux", true, 8, true, [], false, 1, 0⟩
        "extdir" "python" "src" "build" [] false false true).1).any isBuildCall = false :=
  claim_C4_configure_failure_stops ⟨"Linux", true, 8, true, [], false, 1, 0⟩
    "extdir" "python" "src" "build" [] false false true rfl rfl (by decide)

/-- C5 (amended: on a Windows profile only).  On Windows, a missing tool
executable makes `run` fail with the `RuntimeError` naming every extension
(`toolNotFound` of all extension names), the only effect being the version
query — no configure or build invocation is attempted.  (On other
platforms the missing tool instead surfaces as an `OSError` at the
configure invocation; see the counterexample.) -/
theorem claim_C5_tool_not_found_windows (w : World) (exts : List ExtSpec)
    (pythonExe buildFolder : String) (extra : List String) (debug clean bfExists : Bool)
    (hwin : w.platformSystem = "Windows") (hmiss : w.cmakeFound = false) :
    CMakeBuild_run w exts pythonExe buildFolder extra debug clean bfExists
      = ([Effect.versionQuery], .error (.toolNotFound (exts.map ExtSpec.name))) := by
  simp [CMakeBuild_run, hwin, get_cmake_version, hmiss]

/-- C5 witness: Windows world with the tool missing. -/
theorem claim_C5_witness :
    CMakeBuild_run ⟨"Windows", true, 2, false, [], false, 0, 0⟩
        [⟨"dlib", "tools/python", "extdir"⟩] "python" "build" [] false false true
      = ([Effect.versionQuery],
         .error (.toolNotFound
           (List.map ExtSpec.name [(⟨"dlib", "tools/python", "extdir"⟩ : ExtSpec)]))) :=
  claim_C5_tool_not_found_windows ⟨"Windows", true, 2, false, [], false, 0, 0⟩
    [⟨"dlib", "tools/python", "extdir"⟩] "python" "build" [] false false true rfl rfl

/-- C5 counterexample: on a Linux world with the tool missing, the failure
is the raw `OSError` from the configure `check_call`, not the
`toolNotFound` error naming the extensions — the extension-naming guard
only runs on Windows. -/
theorem claim_C5_counterexample :
    (CMakeBuild_run ⟨"Linux", true, 2, false, [], false, 0, 0⟩
        [⟨"dlib", "tools/python", "extdir"⟩] "python" "build" [] false false true).2
      = .error .fileNotFound ∧
    (CMakeBuild_run ⟨"Linux", true, 2, false, [], false, 0, 0⟩
        [⟨"dlib", "tools/python", "extdir"⟩] "python" "build" [] false false true).2
      ≠ .error (.toolNotFound ["dlib"]) := by decide

/-- C6: on a non-Windows profile the build arguments end with the
job-count switch `-j<jobCount cpu>`, where `jobCount cpu = (cpu + 1) / 2`
is exactly `ceil(cpu / 2)` over the rationals; in particular 8 cores give
4 jobs and 7 cores give 4 jobs. -/
theorem claim_C6_job_count (w : World) (extdir pythonExe : String)
    (extra : List String) (debug : Bool) (hpos : w.platformSystem ≠ "Windows") :
    (synthesize_args w extdir pythonExe extra debug).2
      = ["--config", if debug then "Debug" else "Release", "--",
         "-j" ++ toString (jobCount w.cpuCount)] ∧
    ((jobCount w.cpuCount : ℤ) = ⌈(w.cpuCount : ℚ) / 2⌉) ∧
    jobCount 8 = 4 ∧ jobCount 7 = 4 := by
  refine ⟨by simp [synthesize_args, hpos], ?_, by decide, by decide⟩
  set m := jobCount w.cpuCount with hm
  simp only [jobCount] at hm
  have h1 : w.cpuCount ≤ 2 * m := by omega
  have h2 : 2 * m ≤ w.cpuCount + 1 := by omega
  have h1' : (w.cpuCount : ℚ) ≤ 2 * (m : ℚ) := by exact_mod_cast h1
  have h2' : (2 : ℚ) * (m : ℚ) ≤ (w.cpuCount : ℚ) + 1 := by exact_mod_cast h2
  rw [eq_comm, Int.ceil_eq_iff]
  constructor
  · push_cast
    linarith
  · push_cast
    linarith

/-- C6 witness: a POSIX world with 8 logical cores. -/
theorem claim_C6_witness :
    (synthesize_args ⟨"Linux", true, 8, true, [], false, 0, 0⟩ "extdir" "python" [] false).2
      = ["--config", if false then "Debug" else "Release", "--",
         "-j" ++ toString (jobCount (World.cpuCount ⟨"Linux", true, 8, true, [], false, 0, 0⟩))] ∧
    ((jobCount (World.cpuCount ⟨"Linux", true, 8, true, [], false, 0, 0⟩) : ℤ)
      = ⌈((World.cpuCount ⟨"Linux", true, 8, true, [], false, 0, 0⟩ : ℕ) : ℚ) / 2⌉) ∧
    jobCount 8 = 4 ∧ jobCount 7 = 4 :=
  claim_C6_job_count ⟨"Linux", true, 8, true, [], false, 0, 0⟩ "extdir" "python" [] false
    (by decide)

/-- C8: on Windows, when the version token extracted from the tool's
output (by searching for `version`, optional whitespace, then a digits and
dots run — the model of `re.search(r'version\s*([\d.]+)', out)`) parses
below `3.1.0` in `LooseVersion` order, `run` fails with
`unsupportedToolVersion` and the only effect is the version query: no
configure invocation is attempted.  The final conjunct checks the
pattern-matching on a concrete `version <digits.digits.digits>` output. -/
theorem claim_C8_windows_version_gate (w : World) (exts : List ExtSpec)
    (pythonExe buildFolder : String) (extra : List String) (debug clean bfExists : Bool)
    (v : List Char) (hwin : w.platformSystem = "Windows") (hfound : w.cmakeFound = true)
    (hv : extractVersion w.cmakeVersionOutput = some v)
    (hlt : lexLess (digitRuns v) [3, 1, 0] = true) :
    CMakeBuild_run w exts pythonExe buildFolder extra debug clean bfExists
      = ([Effect.versionQuery], .error .unsupportedToolVersion) ∧
    extractVersion "cmake version 3.0.2".data = some "3.0.2".data := by
  refine ⟨?_, by decide⟩
  simp [CMakeBuild_run, hwin, get_cmake_version, hfound, hv, hlt]

/-- C8 witness: a Windows world whose tool prints version 3.0.2. -/
theorem claim_C8_witness :
    CMakeBuild_run ⟨"Windows", true, 2, true, "cmake version 3.0.2".data, false, 0, 0⟩
        [⟨"dlib", "tools/python", "extdir"⟩] "python" "build" [] false false true
      = ([Effect.versionQuery], .error .unsupportedToolVersion) ∧
    extractVersion "cmake version 3.0.2".data = some "3.0.2".data :=
  claim_C8_windows_version_gate
    ⟨"Windows", true, 2, true, "cmake version 3.0.2".data, false, 0, 0⟩
    [⟨"dlib", "tools/python", "extdir"⟩] "python" "build" [] false false true
    "3.0.2".data rfl rfl (by decide) (by decide)

/-- C10: with the clean flag false, `build_extension` never attempts a
removal, and its only filesystem effect is `os.makedirs` of the build
folder when (and only when) the folder does not already exist — an
existing build folder and its contents are untouched. -/
theorem claim_C10_no_clean_frame (w : World)
    (extdir pythonExe sourceDir buildFolder : String) (extra : List String)
    (debug bfExists : Bool) :
    ((build_extension w extdir pythonExe sourceDir buildFolder extra
        debug false bfExists).1).any isRemoveTree = false ∧
    ((build_extension w extdir pythonExe sourceDir buildFolder extra
        debug false bfExists).1).filter isFsEffect
      = (if bfExists then [] else [Effect.makeDirs buildFolder]) := by
  obtain ⟨ps, is64, cpu, cf, out, perm, ce, be⟩ := w
  cases cf <;> cases bfExists <;>
    by_cases hce : ce = 0 <;>
      by_cases hbe : be = 0 <;>
        simp [build_extension, hce, hbe, isRemoveTree, isFsEffect,
          List.any_append, List.filter_append, List.filter, List.any]
